import Mathlib

/-!
# walkure/gatt: controller acquisition, raw I/O and the byte pool

A shallow embedding of `linux/device.go` (`newDevice`, `newSocket`,
`device.Read`, `device.Write`, `device.Close`) and of `linux/util/pool.go`
(`BytePool`), with the properties of the specification proved about it.

Conventions of the embedding.

* Go `int` is `Int`; `uint16(n)` and `uintptr(n)` are the explicit residues
  `n % 2 ^ 16` and `n % 2 ^ 64`; `int32(n)` is the signed 32-bit wrap.  A byte is
  a `Nat`; the only byte operation, the test of bit `0x40`, gives the same
  answer on a number and on its residue modulo 256.
* A `[]byte` is a `List Nat`; the nil slice is `[]` (both have length 0).
* The device-control transport (`gioctl.Ioctl`, `socket.Socket`, `socket.Bind`,
  `unix.Poll`, `syscall.Read/Write/Close`) is external.  It is a parameter
  `Transport σ`: a state type `σ` and a function answering every request from
  the current state.  The embedding records every request it issues, with the
  error the transport answered, in a log (`List Event`), so that statements
  about which requests are issued, and in which order, are statements about
  that log.
* `fmt.Errorf` and `errors.Join` are library code.  An error built by
  `fmt.Errorf` is represented by its format string and its operands, in order;
  no text is rendered.
* `logger.Debugf` / `logger.Warnf` only write to the logging sink and are left
  out.
-/

namespace linux

/-! ## Go error values -/

mutual
/-- Operand of a `fmt.Errorf` call: a string (as bytes), an integer, or an
error value (`none` is the nil interface). -/
inductive Operand where
  | str (s : List Nat)
  | int (i : Int)
  | err (e : Option GoError)
/-- Go `error` values that occur in the package: a `syscall.Errno`, the result
of `fmt.Errorf format operands...`, and the non-nil result of `errors.Join`. -/
inductive GoError where
  | Errno (code : Nat)
  | Errorf (format : String) (operands : List Operand)
  | joinError (errs : List GoError)
end

/-- Constant `syscall.EALREADY` (linux). -/
def EALREADY : Nat := 0x72

/-- Constant `syscall.EINVAL` (linux). -/
def EINVAL : Nat := 0x16

/-- Comparison `err == syscall.Errno(code)` of an `error` interface value with an
errno constant: true exactly when the dynamic value is that `syscall.Errno`. -/
def GoError.isErrno : GoError → Nat → Bool
  | .Errno c, code => c == code
  | _, _ => false

/-- Library function `errors.Join`, applied to non-nil errors: nil when there are
none, otherwise a join error holding them in order. -/
def errorsJoin : List GoError → Option GoError
  | [] => none
  | e :: es => some (.joinError (e :: es))

/-! ## Machine integers -/

/-- Conversion `uint16(n)`. -/
def uint16 (n : Int) : Nat := (n % 2 ^ 16).toNat

/-- Conversion `uintptr(n)` on a 64-bit target. -/
def uintptr (n : Int) : Nat := (n % 2 ^ 64).toNat

/-- Conversion `int32(n)`. -/
def int32 (n : Int) : Int := (n + 2 ^ 31) % 2 ^ 32 - 2 ^ 31

/-! ## The device-control transport -/

/-- Channel kinds `socket.HCI_CHANNEL_RAW` and `socket.HCI_CHANNEL_USER`. -/
inductive Channel where
  | HCI_CHANNEL_RAW
  | HCI_CHANNEL_USER
deriving DecidableEq, Repr

/-- Go type `socket.SockaddrHCI`. -/
structure SockaddrHCI where
  Dev : Int
  Channel : Channel
deriving DecidableEq, Repr

/-- Go type `unix.PollFd`. -/
structure PollFd where
  Fd : Int
  Events : Nat
  Revents : Nat
deriving DecidableEq, Repr

/-- Constant `unix.POLLIN`. -/
def POLLIN : Nat := 0x1

/-- Modelled from the spec: the declaration of `devListRequest` is not among the
sources.  The enumeration request answers with a list of controller indices
(`devRequest`) and their count (`devNum`, a `uint16`); `newDevice` sends the
structure with `devNum` set to the maximum device count. -/
structure devListRequest where
  devNum : Nat
  devRequest : List Nat

/-- Modelled from the spec: the declaration of `hciDevInfo` is not among the
sources.  The info query answers with the controller name (8 bytes) and the
feature bitmap (8 bytes); `id` is the queried index, a `uint16`. -/
structure hciDevInfo where
  id : Nat
  name : List Nat
  features : Fin 8 → Nat

/-- Requests issued to the operating system, one constructor per request kind.
The four `ioctl` requests carry `uintptr(fd)` and their argument. -/
inductive Call where
  /-- Request `socket.Socket(AF_BLUETOOTH, SOCK_RAW, BTPROTO_HCI)`. -/
  | Socket
  | hciGetDeviceList (fd : Nat) (devNum : Nat)
  | hciGetDeviceInfo (fd : Nat) (id : Nat)
  | hciUpDevice (fd : Nat) (arg : Nat)
  | hciResetDevice (fd : Nat) (arg : Nat)
  | hciDownDevice (fd : Nat) (arg : Nat)
  | Bind (fd : Int) (sa : SockaddrHCI)
  | Poll (fds : List PollFd) (timeout : Int)
  | Read (fd : Int) (len : Nat)
  | Write (fd : Int) (b : List Nat)
  | Close (fd : Int)
  /-- Guard operations `d.rmu.Lock()`, `d.rmu.Unlock()`, `d.wmu.Lock()`,
  `d.wmu.Unlock()`; they are recorded, not sent to the transport. -/
  | rmuLock
  | rmuUnlock
  | wmuLock
  | wmuUnlock
deriving DecidableEq, Repr

/-- What a request answers: the error (`none` is nil), the integer result (the
descriptor of `Socket`, the count of `Poll`, `Read`, `Write`), and the
structures the enumeration and the info query fill. -/
structure Reply where
  err : Option GoError
  n : Int
  req : devListRequest
  info : hciDevInfo

/-- A logged request together with the error it answered. -/
structure Event where
  call : Call
  err : Option GoError

/-- The external transport: it answers a request from its current state and
moves to a next state. -/
structure Transport (σ : Type) where
  exec : Call → σ → Reply × σ

/-- Transport state together with the log of the requests issued so far. -/
abbrev World (σ : Type) : Type := σ × List Event

/-- Issue one request: the transport answers and the request is logged. -/
def call {σ : Type} (T : Transport σ) (c : Call) (w : World σ) : Reply × World σ :=
  let r := T.exec c w.1
  (r.1, (r.2, w.2 ++ [⟨c, r.1.err⟩]))

/-- Record a guard operation in the log. -/
def note {σ : Type} (c : Call) (w : World σ) : World σ :=
  (w.1, w.2 ++ [⟨c, none⟩])

/-! ## `linux/device.go` -/

/-- Go type `device`; the two guards `rmu`, `wmu` are fresh mutexes and carry no
data. -/
structure device where
  fd : Int
  fds : List PollFd
  dev : Int
  name : List Nat
deriving DecidableEq, Repr

/-- Lines 72-102 of `newSocket`: bring the controller down, bind the socket and
build the device.  Control reaches them when bring-up succeeds and when the
reset after an "already up" bring-up succeeds. -/
def newSocket.down {σ : Type} (T : Transport σ) (fd n : Int) (name : List Nat) (w : World σ) :
    Except GoError device × World σ :=
  let dn := call T (.hciDownDevice (uintptr fd) (uintptr n)) w
  match dn.1.err with
  | some err => (.error (.Errorf "hciDownDevice failed: %w" [.err (some err)]), dn.2)
  | none =>
    -- Attempt to use the linux 3.14 feature, if this fails with EINVAL fall back to raw access
    -- on older kernels.
    let b := call T (.Bind fd ⟨n, .HCI_CHANNEL_USER⟩) dn.2
    match b.1.err with
    | some err =>
      if !(err.isErrno EINVAL) then
        (.error (.Errorf "dev %q doesn't returns EINVAL: %w" [.str name, .err (some err)]), b.2)
      else
        let b2 := call T (.Bind fd ⟨n, .HCI_CHANNEL_RAW⟩) b.2
        match b2.1.err with
        | some err =>
          (.error (.Errorf "dev: %q can't bind to hci raw channel, err: %w"
            [.str name, .err (some err)]), b2.2)
        | none =>
          (.ok { fd := fd, fds := [⟨int32 fd, POLLIN, 0⟩], dev := n, name := name }, b2.2)
    | none =>
      (.ok { fd := fd, fds := [⟨int32 fd, POLLIN, 0⟩], dev := n, name := name }, b.2)

/-- Function `newSocket(fd, n, chk)`: the returned pair `(*device, error)` is an
`Except`, next to the world after the call. -/
def newSocket {σ : Type} (T : Transport σ) (fd n : Int) (chk : Bool) (w : World σ) :
    Except GoError device × World σ :=
  let i := call T (.hciGetDeviceInfo (uintptr fd) (uint16 n)) w
  match i.1.err with
  | some err => (.error (.Errorf "hciGetDeviceInfo failed: %w" [.err (some err)]), i.2)
  | none =>
    let name := i.1.info.name
    -- Check the feature list returned feature list.
    if chk && (i.1.info.features 4 &&& 0x40 == 0) then
      (.error (.Errorf "does not support LE. dev: %q" [.str name]), i.2)
    else
      let up := call T (.hciUpDevice (uintptr fd) (uintptr n)) i.2
      match up.1.err with
      | some err =>
        if !(err.isErrno EALREADY) then
          (.error err, up.2)
        else
          let rs := call T (.hciResetDevice (uintptr fd) (uintptr n)) up.2
          match rs.1.err with
          | some err => (.error (.Errorf "hciResetDevice failed: %w" [.err (some err)]), rs.2)
          | none => newSocket.down T fd n name rs.2
      | none => newSocket.down T fd n name up.2

/-- The loop of `newDevice`: `i` is the loop counter, `k` the number of
iterations left (`int(req.devNum) - i`), `errs` the errors collected so far. -/
def newDevice.loop {σ : Type} (T : Transport σ) (fd : Int) (chk : Bool) :
    Nat → Nat → List GoError → World σ → Except GoError device × World σ
  | 0, _, errs, w =>
    (.error (.Errorf "no supported devices available: %w" [.err (errorsJoin errs)]), w)
  | k + 1, i, errs, w =>
    match newSocket T fd i chk w with
    | (.ok d, w1) => (.ok d, w1)
    | (.error err, w1) =>
      newDevice.loop T fd chk k (i + 1)
        (errs ++ [.Errorf "error %d: %v" [.int i, .err (some err)]]) w1

/-- Function `newDevice(n, chk)`.  The constant `hciMaxDevices` is declared
outside the sources and is a parameter. -/
def newDevice {σ : Type} (T : Transport σ) (hciMaxDevices : Nat) (n : Int) (chk : Bool)
    (w : World σ) : Except GoError device × World σ :=
  let s := call T .Socket w
  match s.1.err with
  | some err =>
    (.error (.Errorf "could not create AF_BLUETOOTH raw socket: %w" [.err (some err)]), s.2)
  | none =>
    let fd := s.1.n
    if n != -1 then
      newSocket T fd n chk s.2
    else
      let l := call T (.hciGetDeviceList (uintptr fd) hciMaxDevices) s.2
      match l.1.err with
      | some err => (.error (.Errorf "hciGetDeviceList failed: %w" [.err (some err)]), l.2)
      | none => newDevice.loop T fd chk (l.1.req.devNum % 2 ^ 16) 0 [] l.2

/-- Method `device.Read(b)`: the result is the pair `(n, err)`; the deferred
`d.rmu.Unlock()` runs on both exits. -/
def device.Read {σ : Type} (T : Transport σ) (d : device) (b : List Nat) (w : World σ) :
    (Int × Option GoError) × World σ :=
  let w := note .rmuLock w
  -- Use poll to avoid blocking on Read
  let p := call T (.Poll d.fds 100) w
  if p.1.n == 0 || p.1.err.isSome then
    ((0, p.1.err), note .rmuUnlock p.2)
  else
    let r := call T (.Read d.fd b.length) p.2
    ((r.1.n, r.1.err), note .rmuUnlock r.2)

/-- Method `device.Write(b)`. -/
def device.Write {σ : Type} (T : Transport σ) (d : device) (b : List Nat) (w : World σ) :
    (Int × Option GoError) × World σ :=
  let w := note .wmuLock w
  let r := call T (.Write d.fd b) w
  ((r.1.n, r.1.err), note .wmuUnlock r.2)

/-- Method `device.Close()`. -/
def device.Close {σ : Type} (T : Transport σ) (d : device) (w : World σ) :
    Option GoError × World σ :=
  let r := call T (.Close d.fd) w
  (r.1.err, r.2)

/-! ## Vocabulary of the statements -/

/-- The transport never fails the request `c`, whatever its state. -/
def Transport.succeeds {σ : Type} (T : Transport σ) (c : Call) : Prop :=
  ∀ s, (T.exec c s).1.err = none

/-- The request is a socket bind. -/
def Call.isBind : Call → Bool
  | .Bind _ _ => true
  | _ => false

/-- The 8 bytes of the controller name `hci0`, ..., `hci9`, padded with NUL. -/
def hciName (id : Nat) : List Nat := [104, 99, 105, 48 + id, 0, 0, 0, 0]

/-- A transport without state in which every request succeeds; every request
answers the integer 3 (the descriptor of `Socket`, the count of `Poll` and
`Read`), and the info query answers the name `hci0` and a feature bitmap whose
bytes are all `f`. -/
def allSucceed (f : Nat) : Transport Unit where
  exec := fun _ s => (⟨none, 3, ⟨0, []⟩, ⟨0, hciName 0, fun _ => f⟩⟩, s)

/-- The transport `allSucceed 0x40`, except that the request kind selected by
`fails` answers the error `e`. -/
def failing (fails : Call → Bool) (e : GoError) : Transport Unit where
  exec := fun c s =>
    (⟨if fails c then some e else none, 3, ⟨0, []⟩, ⟨0, hciName 0, fun _ => 0x40⟩⟩, s)

/-- The request changes the state of controller `i`: bring-up, reset or
bring-down with argument `i`, or a bind to a channel of `i`. -/
def Call.mutates (i : Nat) : Call → Bool
  | .hciUpDevice _ arg => arg == i
  | .hciResetDevice _ arg => arg == i
  | .hciDownDevice _ arg => arg == i
  | .Bind _ sa => sa.Dev == (i : Int)
  | _ => false

/-- Starting in world `w`, the claims `newSocket fd i chk`, `newSocket fd (i+1) chk`,
... are made one after the other, each from the world the one before left, each
returns an error, these errors are `es` in order, and the last leaves `w1`. -/
def claimsFail {σ : Type} (T : Transport σ) (fd : Int) (chk : Bool) :
    Nat → World σ → List GoError → World σ → Prop
  | _, w, [], w1 => w1 = w
  | i, w, e :: es, w1 =>
    ∃ w0, newSocket T fd i chk w = (.error e, w0) ∧ claimsFail T fd chk (i + 1) w0 es w1

/-- The entries `fmt.Errorf("error %d: %v", i, err)` for consecutive indices
starting at `i` and the errors `es`. -/
def joinEntries : Nat → List GoError → List GoError
  | _, [] => []
  | i, e :: es => .Errorf "error %d: %v" [.int i, .err (some e)] :: joinEntries (i + 1) es

/-- A transport without state on a machine whose only controller is `hci1`: the
enumeration reports one controller, of index 1; the info query fails with ENODEV
(`syscall.Errno(19)`) for every index but 1; every other request succeeds. -/
def onlyHci1 : Transport Unit where
  exec := fun c s =>
    match c with
    | .hciGetDeviceList _ _ => (⟨none, 0, ⟨1, [1]⟩, ⟨0, hciName 0, fun _ => 0⟩⟩, s)
    | .hciGetDeviceInfo _ id =>
      (⟨if id == 1 then none else some (.Errno 19), 0, ⟨0, []⟩, ⟨id, hciName id, fun _ => 0x40⟩⟩, s)
    | _ => (⟨none, 3, ⟨0, []⟩, ⟨0, hciName 0, fun _ => 0⟩⟩, s)

/-- A transport without state on a machine with two controllers, of which only
the second reports Low Energy support; every request succeeds. -/
def secondHasLE : Transport Unit where
  exec := fun c s =>
    match c with
    | .hciGetDeviceList _ _ => (⟨none, 0, ⟨2, [0, 1]⟩, ⟨0, hciName 0, fun _ => 0⟩⟩, s)
    | .hciGetDeviceInfo _ id =>
      (⟨none, 0, ⟨0, []⟩, ⟨id, hciName id, fun _ => if id == 1 then 0x40 else 0⟩⟩, s)
    | _ => (⟨none, 3, ⟨0, []⟩, ⟨0, hciName 0, fun _ => 0⟩⟩, s)

/-- A transport without state on a machine with two controllers, neither usable:
the info query of the first fails with ENODEV (`syscall.Errno(19)`), the second
reports no Low Energy support; every other request succeeds. -/
def noneUsable : Transport Unit where
  exec := fun c s =>
    match c with
    | .hciGetDeviceList _ _ => (⟨none, 0, ⟨2, [0, 1]⟩, ⟨0, hciName 0, fun _ => 0⟩⟩, s)
    | .hciGetDeviceInfo _ id =>
      (⟨if id == 0 then some (.Errno 19) else none, 0, ⟨0, []⟩, ⟨id, hciName id, fun _ => 0⟩⟩, s)
    | _ => (⟨none, 3, ⟨0, []⟩, ⟨0, hciName 0, fun _ => 0⟩⟩, s)

end linux

/-! ## `linux/util/pool.go` -/

namespace util

/-- A Go `chan []byte` as one goroutine sees it: the buffered elements in
arrival order, the capacity and the closed flag. -/
structure chan where
  buf : List (List Nat)
  cap : Nat
  closed : Bool
deriving DecidableEq, Repr

/-- Go type `BytePool`. -/
structure BytePool where
  pool : chan
  width : Int
deriving DecidableEq, Repr

/-- Function `NewBytePool(width, depth)`; `make(chan []byte, depth)` panics on a
negative `depth`.  A run-time panic is an `Except.error` with its message. -/
def NewBytePool (width depth : Int) : Except String BytePool :=
  if depth < 0 then .error "makechan: size out of range"
  else .ok { pool := { buf := [], cap := depth.toNat, closed := false }, width := width }

/-- Method `BytePool.Close()`: `close(p.pool)` panics on a closed channel. -/
def BytePool.Close (p : BytePool) : Except String BytePool :=
  if p.pool.closed then .error "close of closed channel"
  else .ok { p with pool := { p.pool with closed := true } }

/-- Method `BytePool.Get()`.  The receive case of the `select` is taken when the
channel holds an element, and also when it is closed and drained, where it
yields the zero value, the nil slice; otherwise the default case allocates
`make([]byte, p.width)`, which panics on a negative width. -/
def BytePool.Get (p : BytePool) : Except String (List Nat × BytePool) :=
  match p.pool.buf with
  | b :: rest => .ok (b, { p with pool := { p.pool with buf := rest } })
  | [] =>
    if p.pool.closed then .ok ([], p)
    else if p.width < 0 then .error "makeslice: len out of range"
    else .ok (List.replicate p.width.toNat 0, p)

/-- The `select` of `BytePool.Put`: a send on a closed channel panics; otherwise
the send case is taken when the channel has room, and the default case does
nothing. -/
def BytePool.Put.send (p : BytePool) (b : List Nat) : Except String BytePool :=
  if p.pool.closed then .error "send on closed channel"
  else if p.pool.buf.length < p.pool.cap then
    .ok { p with pool := { p.pool with buf := p.pool.buf ++ [b] } }
  else .ok p

/-- Method `BytePool.Put(b)`: the deferred function recovers a panic of the
`select` (and prints it with `log.Printf`), so that `Put` returns normally. -/
def BytePool.Put (p : BytePool) (b : List Nat) : Except String BytePool :=
  match BytePool.Put.send p b with
  | .error _ => .ok p
  | .ok q => .ok q

/-- One operation on a pool. -/
inductive Op where
  | Get
  | Put (b : List Nat)
  | Close
deriving DecidableEq, Repr

/-- Run a sequence of operations on a pool, stopping at the first panic that
reaches the caller: the buffers returned by the `Get`s, in order, and the pool
at the end. -/
def run : BytePool → List Op → Except String (List (List Nat) × BytePool)
  | p, [] => .ok ([], p)
  | p, .Get :: ops =>
    match p.Get with
    | .error e => .error e
    | .ok (b, q) =>
      match run q ops with
      | .error e => .error e
      | .ok (outs, r) => .ok (b :: outs, r)
  | p, .Put b :: ops =>
    match p.Put b with
    | .error e => .error e
    | .ok q => run q ops
  | p, .Close :: ops =>
    match p.Close with
    | .error e => .error e
    | .ok q => run q ops

end util

/-! # Theorems -/

namespace linux

/-! ## Properties of `newSocket` -/

/-- C1: over a transport in which the socket request, the info query, bring-up,
bring-down and the user-channel bind never fail, `newSocket fd n chk` returns a
device iff `chk` is false or byte 4 of the reported feature bitmap has bit `0x40`
set, and with `chk` true and the bit clear it returns the "does not support LE"
error; the same holds of `newDevice n chk` when `n ≠ -1`, for the descriptor the
socket request answered. -/
theorem newSocket_ok_iff_lowEnergy {σ : Type} (T : Transport σ) (n : Int) (chk : Bool)
    (hSock : T.succeeds .Socket)
    (hInfo : ∀ fd, T.succeeds (.hciGetDeviceInfo (uintptr fd) (uint16 n)))
    (hUp : ∀ fd, T.succeeds (.hciUpDevice (uintptr fd) (uintptr n)))
    (hDown : ∀ fd, T.succeeds (.hciDownDevice (uintptr fd) (uintptr n)))
    (hBind : ∀ fd, T.succeeds (.Bind fd ⟨n, .HCI_CHANNEL_USER⟩)) :
    (∀ (fd : Int) (w : World σ),
      ((∃ d, (newSocket T fd n chk w).1 = .ok d) ↔
        (chk = false ∨
          (T.exec (.hciGetDeviceInfo (uintptr fd) (uint16 n)) w.1).1.info.features 4
            &&& 0x40 ≠ 0)) ∧
      (chk = true →
        (T.exec (.hciGetDeviceInfo (uintptr fd) (uint16 n)) w.1).1.info.features 4
          &&& 0x40 = 0 →
        (newSocket T fd n chk w).1 = .error (.Errorf "does not support LE. dev: %q"
          [.str (T.exec (.hciGetDeviceInfo (uintptr fd) (uint16 n)) w.1).1.info.name]))) ∧
    (n ≠ -1 → ∀ (hciMaxDevices : Nat) (w : World σ),
      ((∃ d, (newDevice T hciMaxDevices n chk w).1 = .ok d) ↔
        (chk = false ∨
          (T.exec (.hciGetDeviceInfo (uintptr (T.exec .Socket w.1).1.n) (uint16 n))
            (T.exec .Socket w.1).2).1.info.features 4 &&& 0x40 ≠ 0)) ∧
      (chk = true →
        (T.exec (.hciGetDeviceInfo (uintptr (T.exec .Socket w.1).1.n) (uint16 n))
          (T.exec .Socket w.1).2).1.info.features 4 &&& 0x40 = 0 →
        (newDevice T hciMaxDevices n chk w).1 = .error (.Errorf "does not support LE. dev: %q"
          [.str (T.exec (.hciGetDeviceInfo (uintptr (T.exec .Socket w.1).1.n) (uint16 n))
            (T.exec .Socket w.1).2).1.info.name]))) := by
  simp only [Transport.succeeds] at hSock hInfo hUp hDown hBind
  constructor
  · intro fd w
    simp only [newSocket, newSocket.down, call, hInfo, hUp, hDown, hBind]
    cases chk <;> simp
    split <;> simp_all
  · intro hn hmax w
    have hn1 : (n != -1) = true := by simpa using hn
    simp only [newDevice, newSocket, newSocket.down, call, hSock, hInfo, hUp, hDown, hBind, hn1,
      if_true]
    cases chk <;> simp
    split <;> simp_all

/-- Witness of C1: the all-succeeding transport whose controllers report the
Low Energy bit. -/
theorem newSocket_ok_iff_lowEnergy_witness :
    (∃ d, (newSocket (allSucceed 0x40) 3 0 true ((), [])).1 = .ok d) ↔
      (true = false ∨
        ((allSucceed 0x40).exec (.hciGetDeviceInfo (uintptr 3) (uint16 0)) ()).1.info.features 4
          &&& 0x40 ≠ 0) :=
  ((newSocket_ok_iff_lowEnergy (allSucceed 0x40) 0 true (fun _ => rfl) (fun _ _ => rfl)
    (fun _ _ => rfl) (fun _ _ => rfl) (fun _ _ => rfl)).1 3 ((), [])).1

/-- C4: in the log of `newSocket`, a bring-up answered "already up" (EALREADY)
is followed at once by a reset, ahead of whatever else is issued; if that reset
fails the log ends there (no bring-down, no bind) and the reset error is
returned wrapped.  A bring-up answered by any other error ends the log (no
reset, bring-down or bind) and `newSocket` returns an error. -/
theorem newSocket_already_up_resets_first {σ : Type} (T : Transport σ) (fd n : Int)
    (chk : Bool) (s : σ) (e : GoError)
    (hup : ⟨.hciUpDevice (uintptr fd) (uintptr n), some e⟩ ∈ (newSocket T fd n chk (s, [])).2.2) :
    (e.isErrno EALREADY = true →
      ∃ re rest,
        (newSocket T fd n chk (s, [])).2.2 =
          [⟨.hciGetDeviceInfo (uintptr fd) (uint16 n), none⟩,
           ⟨.hciUpDevice (uintptr fd) (uintptr n), some e⟩,
           ⟨.hciResetDevice (uintptr fd) (uintptr n), re⟩] ++ rest ∧
        (∀ x, re = some x →
          rest = [] ∧
          (newSocket T fd n chk (s, [])).1 =
            .error (.Errorf "hciResetDevice failed: %w" [.err (some x)]))) ∧
    (e.isErrno EALREADY = false →
      (newSocket T fd n chk (s, [])).2.2 =
        [⟨.hciGetDeviceInfo (uintptr fd) (uint16 n), none⟩,
         ⟨.hciUpDevice (uintptr fd) (uintptr n), some e⟩] ∧
      (newSocket T fd n chk (s, [])).1 = .error e) := by
  revert hup
  simp only [newSocket, newSocket.down, call]
  repeat' split
  all_goals simp_all
  all_goals
    intro h
    subst h
    exact ⟨_, _, ⟨rfl, rfl⟩, fun x hx => by simp_all⟩

/-- Witness of C4: bring-up answers EALREADY and every other request succeeds. -/
theorem newSocket_already_up_resets_first_witness :
    ∃ re rest,
      (newSocket (failing (fun c => c == .hciUpDevice 3 0) (.Errno EALREADY)) 3 0 true ((), [])).2.2 =
        [⟨.hciGetDeviceInfo (uintptr 3) (uint16 0), none⟩,
         ⟨.hciUpDevice (uintptr 3) (uintptr 0), some (.Errno EALREADY)⟩,
         ⟨.hciResetDevice (uintptr 3) (uintptr 0), re⟩] ++ rest ∧
      (∀ x, re = some x →
        rest = [] ∧
        (newSocket (failing (fun c => c == .hciUpDevice 3 0) (.Errno EALREADY)) 3 0 true ((), [])).1 =
          .error (.Errorf "hciResetDevice failed: %w" [.err (some x)])) :=
  (newSocket_already_up_resets_first (failing (fun c => c == .hciUpDevice 3 0) (.Errno EALREADY))
    3 0 true () (.Errno EALREADY)
    (by simp [newSocket, newSocket.down, call, failing, GoError.isErrno, uintptr, uint16])).1 rfl

/-- C5: once bring-down has succeeded in `newSocket`, the user-channel bind is
issued, and the binds of the log are: that bind alone when it succeeds (a device
is returned) or fails with an error other than EINVAL (an error is returned);
that bind followed by exactly one bind to the raw channel of the same index when
it fails with EINVAL, and then a device is returned iff the raw bind succeeds. -/
theorem newSocket_bind_fallback {σ : Type} (T : Transport σ) (fd n : Int) (chk : Bool) (s : σ)
    (hdown : ⟨.hciDownDevice (uintptr fd) (uintptr n), none⟩ ∈
      (newSocket T fd n chk (s, [])).2.2) :
    ∃ be,
      ⟨.Bind fd ⟨n, .HCI_CHANNEL_USER⟩, be⟩ ∈ (newSocket T fd n chk (s, [])).2.2 ∧
      (be = none →
        (newSocket T fd n chk (s, [])).2.2.filter (fun ev => ev.call.isBind) =
          [⟨.Bind fd ⟨n, .HCI_CHANNEL_USER⟩, none⟩] ∧
        ∃ d, (newSocket T fd n chk (s, [])).1 = .ok d) ∧
      (∀ e, be = some e → e.isErrno EINVAL = true →
        ∃ re,
          (newSocket T fd n chk (s, [])).2.2.filter (fun ev => ev.call.isBind) =
            [⟨.Bind fd ⟨n, .HCI_CHANNEL_USER⟩, some e⟩,
             ⟨.Bind fd ⟨n, .HCI_CHANNEL_RAW⟩, re⟩] ∧
          ((∃ d, (newSocket T fd n chk (s, [])).1 = .ok d) ↔ re = none)) ∧
      (∀ e, be = some e → e.isErrno EINVAL = false →
        (newSocket T fd n chk (s, [])).2.2.filter (fun ev => ev.call.isBind) =
          [⟨.Bind fd ⟨n, .HCI_CHANNEL_USER⟩, some e⟩] ∧
        ∃ e1, (newSocket T fd n chk (s, [])).1 = .error e1) := by
  revert hdown
  simp only [newSocket, newSocket.down, call]
  repeat' split
  all_goals simp_all [Call.isBind]

/-- Witness of C5: the user-channel bind answers EINVAL and every other request
succeeds, so the raw-channel bind is issued once and the device is returned. -/
theorem newSocket_bind_fallback_witness :
    ⟨.hciDownDevice (uintptr 3) (uintptr 0), none⟩ ∈
      (newSocket (failing (fun c => c == .Bind 3 ⟨0, .HCI_CHANNEL_USER⟩) (.Errno EINVAL))
        3 0 true ((), [])).2.2 ∧
    ∃ be,
      ⟨.Bind 3 ⟨0, .HCI_CHANNEL_USER⟩, be⟩ ∈
        (newSocket (failing (fun c => c == .Bind 3 ⟨0, .HCI_CHANNEL_USER⟩) (.Errno EINVAL))
          3 0 true ((), [])).2.2 ∧
      (∀ e, be = some e → e.isErrno EINVAL = true →
        ∃ re,
          (newSocket (failing (fun c => c == .Bind 3 ⟨0, .HCI_CHANNEL_USER⟩) (.Errno EINVAL))
            3 0 true ((), [])).2.2.filter (fun ev => ev.call.isBind) =
            [⟨.Bind 3 ⟨0, .HCI_CHANNEL_USER⟩, some e⟩,
             ⟨.Bind 3 ⟨0, .HCI_CHANNEL_RAW⟩, re⟩] ∧
          ((∃ d, (newSocket (failing (fun c => c == .Bind 3 ⟨0, .HCI_CHANNEL_USER⟩)
            (.Errno EINVAL)) 3 0 true ((), [])).1 = .ok d) ↔ re = none)) :=
  have hdown : ⟨.hciDownDevice (uintptr 3) (uintptr 0), none⟩ ∈
      (newSocket (failing (fun c => c == .Bind 3 ⟨0, .HCI_CHANNEL_USER⟩) (.Errno EINVAL))
        3 0 true ((), [])).2.2 := by
    simp [newSocket, newSocket.down, call, failing, GoError.isErrno, uintptr, uint16, EINVAL]
  ⟨hdown,
    (newSocket_bind_fallback (failing (fun c => c == .Bind 3 ⟨0, .HCI_CHANNEL_USER⟩)
      (.Errno EINVAL)) 3 0 true () hdown).imp (fun _ h => ⟨h.1, h.2.2.1⟩)⟩

/-- C9 fails on the code: when bring-up answers EPERM (`syscall.Errno(1)`), an
error other than "already up", and every other request succeeds, `newSocket`
returns that bare `syscall.Errno(1)`, built by no `fmt.Errorf` and naming no
operation. -/
theorem newSocket_bringUp_error_returned_bare :
    newSocket (failing (fun c => c == .hciUpDevice 3 0) (.Errno 1)) 3 0 true ((), []) =
      (.error (.Errno 1),
        ((), [⟨.hciGetDeviceInfo 3 0, none⟩, ⟨.hciUpDevice 3 0, some (.Errno 1)⟩])) := by
  rfl

/-- Every error `newSocket` returns is built by `fmt.Errorf`, except the error of
a bring-up that is not "already up", which is returned as the transport gave
it. -/
theorem newSocket_error_wrapped_or_bringUp {σ : Type} (T : Transport σ) (fd n : Int)
    (chk : Bool) (s : σ) (e : GoError) (h : (newSocket T fd n chk (s, [])).1 = .error e) :
    (∃ format operands, e = .Errorf format operands) ∨
    (⟨.hciUpDevice (uintptr fd) (uintptr n), some e⟩ ∈ (newSocket T fd n chk (s, [])).2.2 ∧
      e.isErrno EALREADY = false) := by
  revert h
  simp only [newSocket, newSocket.down, call]
  repeat' split
  all_goals simp_all
  all_goals
    intro h
    subst h
    simp_all

/-! ## Properties of `newDevice` -/

/-- A device returned by `newSocket fd n chk` has index `n` and descriptor `fd`. -/
theorem newSocket_ok_dev {σ : Type} (T : Transport σ) (fd n : Int) (chk : Bool) (w w1 : World σ)
    (d : device) (h : newSocket T fd n chk w = (.ok d, w1)) : d.dev = n ∧ d.fd = fd := by
  revert h
  simp only [newSocket, newSocket.down, call]
  repeat' split
  all_goals simp_all
  all_goals
    rintro rfl -
    exact ⟨rfl, rfl⟩

/-- The loop of `newDevice` when the next `es.length` claims fail and none is left. -/
theorem loop_all_fail {σ : Type} (T : Transport σ) (fd : Int) (chk : Bool) (es : List GoError) :
    ∀ (i : Nat) (errs : List GoError) (w w1 : World σ),
      claimsFail T fd chk i w es w1 →
      newDevice.loop T fd chk es.length i errs w =
        (.error (.Errorf "no supported devices available: %w"
          [.err (errorsJoin (errs ++ joinEntries i es))]), w1) := by
  induction es with
  | nil =>
    intro i errs w w1 h
    simp only [claimsFail] at h
    simp [newDevice.loop, joinEntries, h]
  | cons e es ih =>
    intro i errs w w1 h
    obtain ⟨w0, h0, h1⟩ := h
    simp only [List.length_cons, newDevice.loop, h0]
    rw [ih (i + 1) _ w0 w1 h1]
    simp [joinEntries]

/-- The loop of `newDevice` when the next `es.length` claims fail and the one
after them succeeds. -/
theorem loop_first_success {σ : Type} (T : Transport σ) (fd : Int) (chk : Bool)
    (es : List GoError) :
    ∀ (k i : Nat) (errs : List GoError) (w w0 w1 : World σ) (d : device),
      claimsFail T fd chk i w es w0 → es.length < k →
      newSocket T fd ((i + es.length : Nat) : Int) chk w0 = (.ok d, w1) →
      newDevice.loop T fd chk k i errs w = (.ok d, w1) := by
  induction es with
  | nil =>
    intro k i errs w w0 w1 d h hk hs
    simp only [claimsFail] at h
    subst h
    obtain ⟨k, rfl⟩ : ∃ j, k = j + 1 := ⟨k - 1, by simp at hk; omega⟩
    simp only [List.length_nil, Nat.add_zero] at hs
    simp [newDevice.loop, hs]
  | cons e es ih =>
    intro k i errs w w0 w1 d h hk hs
    obtain ⟨w2, h0, h1⟩ := h
    obtain ⟨k, rfl⟩ : ∃ j, k = j + 1 := ⟨k - 1, by simp at hk; omega⟩
    simp only [newDevice.loop, h0]
    apply ih k (i + 1) _ w2 w0 w1 d h1 (by simpa using hk)
    have : i + 1 + es.length = i + (e :: es).length := by simp; omega
    rw [this]
    exact hs

/-- Claims that fail in every world fail one after the other. -/
theorem exists_claimsFail {σ : Type} (T : Transport σ) (fd : Int) (chk : Bool) :
    ∀ (k i : Nat) (w : World σ),
      (∀ j, i ≤ j → j < i + k → ∀ w2, ∃ e w3, newSocket T fd (j : Nat) chk w2 = (.error e, w3)) →
      ∃ es w1, claimsFail T fd chk i w es w1 ∧ es.length = k := by
  intro k
  induction k with
  | zero =>
    intro i w _
    exact ⟨[], w, rfl, rfl⟩
  | succ k ih =>
    intro i w h
    obtain ⟨e, w3, h3⟩ := h i (le_refl i) (by omega) w
    obtain ⟨es, w1, h1, hl⟩ := ih (i + 1) w3 (fun j hj1 hj2 => h j (by omega) (by omega))
    exact ⟨e :: es, w1, ⟨w3, h3, h1⟩, by simp [hl]⟩

/-- C3 fails on the code: on a machine whose only controller is `hci1` the
transport reports one controller, the list `[1]`, and controller 1 can be
claimed; yet `newDevice (-1)` claims the loop counter 0 instead of the reported
index, queries controller 0 only, issues no request for controller 1, and
returns the "no supported devices available" error. -/
theorem newDevice_ignores_reported_indices :
    (onlyHci1.exec (.hciGetDeviceList 3 16) ()).1.req.devNum = 1 ∧
    (onlyHci1.exec (.hciGetDeviceList 3 16) ()).1.req.devRequest = [1] ∧
    (newSocket onlyHci1 3 1 false ((), [])).1 =
      .ok { fd := 3, fds := [⟨3, POLLIN, 0⟩], dev := 1, name := hciName 1 } ∧
    newDevice onlyHci1 16 (-1) false ((), []) =
      (.error (.Errorf "no supported devices available: %w"
        [.err (some (.joinError [.Errorf "error %d: %v"
          [.int 0, .err (some (.Errorf "hciGetDeviceInfo failed: %w"
            [.err (some (.Errno 19))]))]]))]),
       ((), [⟨.Socket, none⟩, ⟨.hciGetDeviceList 3 16, none⟩,
             ⟨.hciGetDeviceInfo 3 0, some (.Errno 19)⟩])) := by
  refine ⟨rfl, rfl, rfl, rfl⟩

/-- What the loop of `newDevice (-1)` does once the socket `fd` is open and the
enumeration has answered the count `m`: it claims the loop counters 0, 1, 2, ...
below `m` in ascending order, each from the world the one before left.  If the
claims of 0, ..., k-1 fail and the claim of `k < m` returns a device,
`newDevice` returns that device, of index `k`, in the world that claim left:
nothing is attempted after it.  In particular this holds when the claims of the
counters below `k` fail in every world and that of `k` succeeds in every
world. -/
theorem newDevice_any_first_success {σ : Type} (T : Transport σ) (hciMaxDevices : Nat)
    (chk : Bool) (w w0 : World σ) (fd : Int) (m : Nat)
    (hsock : (call T .Socket w).1.err = none)
    (hfd : (call T .Socket w).1.n = fd)
    (hlist : (call T (.hciGetDeviceList (uintptr fd) hciMaxDevices)
      (call T .Socket w).2).1.err = none)
    (hm : (call T (.hciGetDeviceList (uintptr fd) hciMaxDevices)
      (call T .Socket w).2).1.req.devNum % 2 ^ 16 = m)
    (hw0 : (call T (.hciGetDeviceList (uintptr fd) hciMaxDevices) (call T .Socket w).2).2 = w0) :
    (∀ (es : List GoError) (wk w1 : World σ) (d : device),
      claimsFail T fd chk 0 w0 es wk → es.length < m →
      newSocket T fd (es.length : Nat) chk wk = (.ok d, w1) →
      newDevice T hciMaxDevices (-1) chk w = (.ok d, w1) ∧ d.dev = es.length) ∧
    (∀ k, k < m →
      (∀ i, i < k → ∀ w2, ∃ e w3, newSocket T fd (i : Nat) chk w2 = (.error e, w3)) →
      (∀ w2, ∃ d w3, newSocket T fd (k : Nat) chk w2 = (.ok d, w3)) →
      ∃ d w1, newDevice T hciMaxDevices (-1) chk w = (.ok d, w1) ∧ d.dev = k) := by
  have key : ∀ (es : List GoError) (wk w1 : World σ) (d : device),
      claimsFail T fd chk 0 w0 es wk → es.length < m →
      newSocket T fd (es.length : Nat) chk wk = (.ok d, w1) →
      newDevice T hciMaxDevices (-1) chk w = (.ok d, w1) ∧ d.dev = es.length := by
    intro es wk w1 d hf hlt hs
    refine ⟨?_, (newSocket_ok_dev T fd _ chk wk w1 d hs).1⟩
    subst hfd
    simp only [newDevice, hsock, hlist, hm, hw0]
    simp only [bne_self_eq_false, Bool.false_eq_true, if_false]
    exact loop_first_success T _ chk es m 0 [] w0 wk w1 d hf hlt (by simpa using hs)
  refine ⟨key, ?_⟩
  intro k hk hfail hok
  obtain ⟨es, wk, hf, hl⟩ := exists_claimsFail T fd chk k 0 w0
    (fun j _ hj w2 => hfail j (by omega) w2)
  obtain ⟨d, w1, hs⟩ := hok wk
  subst hl
  exact ⟨d, w1, key es wk w1 d hf hk hs⟩

/-- The loop on a concrete machine: of two controllers only the second reports Low Energy
support; with `chk` true the claim of index 0 fails, that of index 1 succeeds and
its device is returned. -/
theorem newDevice_any_first_success_witness :
    newDevice secondHasLE 16 (-1) true ((), []) =
      (.ok { fd := 3, fds := [⟨3, POLLIN, 0⟩], dev := 1, name := hciName 1 },
       ((), [⟨.Socket, none⟩, ⟨.hciGetDeviceList 3 16, none⟩,
             ⟨.hciGetDeviceInfo 3 0, none⟩,
             ⟨.hciGetDeviceInfo 3 1, none⟩, ⟨.hciUpDevice 3 1, none⟩,
             ⟨.hciDownDevice 3 1, none⟩,
             ⟨.Bind 3 ⟨1, .HCI_CHANNEL_USER⟩, none⟩])) ∧
    (1 : Int) = ([GoError.Errorf "does not support LE. dev: %q" [.str (hciName 0)]].length : Nat) :=
  (newDevice_any_first_success secondHasLE 16 true ((), [])
    ((), [⟨.Socket, none⟩, ⟨.hciGetDeviceList 3 16, none⟩]) 3 2 rfl rfl rfl rfl rfl).1
    [.Errorf "does not support LE. dev: %q" [.str (hciName 0)]]
    ((), [⟨.Socket, none⟩, ⟨.hciGetDeviceList 3 16, none⟩, ⟨.hciGetDeviceInfo 3 0, none⟩])
    _ _ ⟨_, rfl, rfl⟩ (by decide) rfl

/-- The entries are as many as the errors. -/
theorem joinEntries_length (es : List GoError) :
    ∀ i0, (joinEntries i0 es).length = es.length := by
  induction es with
  | nil => intro i0; rfl
  | cons e es ih => intro i0; simp [joinEntries, ih]

/-- Entry `i` carries the index of its candidate and the candidate's error. -/
theorem joinEntries_get (es : List GoError) :
    ∀ (i0 i : Nat) (h : i < es.length),
      (joinEntries i0 es)[i]? =
        some (.Errorf "error %d: %v" [.int ((i0 + i : Nat) : Int), .err (some es[i])]) := by
  induction es with
  | nil => intro i0 i h; simp at h
  | cons e es ih =>
    intro i0 i h
    cases i with
    | zero => simp [joinEntries]
    | succ i =>
      have h1 : i < es.length := by simpa using h
      simp only [joinEntries, List.getElem?_cons_succ, List.getElem_cons_succ]
      rw [ih (i0 + 1) i h1]
      have : i0 + 1 + i = i0 + (i + 1) := by omega
      rw [this]

/-- C6: when `newDevice (-1)` has opened the socket `fd`, the enumeration has
succeeded reporting the count `m`, and the claims of the candidates 0, ..., m-1,
made one after the other, all fail, with the errors `es` in order, `newDevice`
returns no device and the error
`fmt.Errorf("no supported devices available: %w", errors.Join(entries...))`,
where the entries are, in attempt order, `fmt.Errorf("error %d: %v", i, err)` for
each candidate `i` and its own claim error `err`. -/
theorem newDevice_any_all_fail {σ : Type} (T : Transport σ) (hciMaxDevices : Nat)
    (chk : Bool) (w w0 w1 : World σ) (fd : Int) (es : List GoError)
    (hsock : (call T .Socket w).1.err = none)
    (hfd : (call T .Socket w).1.n = fd)
    (hlist : (call T (.hciGetDeviceList (uintptr fd) hciMaxDevices)
      (call T .Socket w).2).1.err = none)
    (hm : (call T (.hciGetDeviceList (uintptr fd) hciMaxDevices)
      (call T .Socket w).2).1.req.devNum % 2 ^ 16 = es.length)
    (hw0 : (call T (.hciGetDeviceList (uintptr fd) hciMaxDevices) (call T .Socket w).2).2 = w0)
    (hfail : claimsFail T fd chk 0 w0 es w1) :
    newDevice T hciMaxDevices (-1) chk w =
      (.error (.Errorf "no supported devices available: %w"
        [.err (errorsJoin (joinEntries 0 es))]), w1) ∧
    (joinEntries 0 es).length = es.length ∧
    ∀ (i : Nat) (h : i < es.length),
      (joinEntries 0 es)[i]? = some (.Errorf "error %d: %v" [.int i, .err (some es[i])]) := by
  refine ⟨?_, joinEntries_length es 0, ?_⟩
  · subst hfd
    simp only [newDevice, hsock, hlist, hm, hw0]
    simp only [bne_self_eq_false, Bool.false_eq_true, if_false]
    simpa using loop_all_fail T _ chk es 0 [] w0 w1 hfail
  · intro i h
    simpa using joinEntries_get es 0 i h

/-- Witness of C6: of two controllers the info query of the first fails and the
second reports no Low Energy support; both errors are in the joined error. -/
theorem newDevice_any_all_fail_witness :
    newDevice noneUsable 16 (-1) true ((), []) =
      (.error (.Errorf "no supported devices available: %w"
        [.err (some (.joinError
          [.Errorf "error %d: %v"
             [.int 0, .err (some (.Errorf "hciGetDeviceInfo failed: %w" [.err (some (.Errno 19))]))],
           .Errorf "error %d: %v"
             [.int 1, .err (some (.Errorf "does not support LE. dev: %q" [.str (hciName 1)]))]]))]),
       ((), [⟨.Socket, none⟩, ⟨.hciGetDeviceList 3 16, none⟩,
             ⟨.hciGetDeviceInfo 3 0, some (.Errno 19)⟩, ⟨.hciGetDeviceInfo 3 1, none⟩])) :=
  (newDevice_any_all_fail noneUsable 16 true ((), [])
    ((), [⟨.Socket, none⟩, ⟨.hciGetDeviceList 3 16, none⟩])
    ((), [⟨.Socket, none⟩, ⟨.hciGetDeviceList 3 16, none⟩,
          ⟨.hciGetDeviceInfo 3 0, some (.Errno 19)⟩, ⟨.hciGetDeviceInfo 3 1, none⟩])
    3
    [.Errorf "hciGetDeviceInfo failed: %w" [.err (some (.Errno 19))],
     .Errorf "does not support LE. dev: %q" [.str (hciName 1)]]
    rfl rfl rfl rfl rfl ⟨_, rfl, _, rfl, rfl⟩).1

/-- On a natural number below `2 ^ 64`, `uintptr` is the identity. -/
theorem uintptr_natCast (j : Nat) (h : j < 2 ^ 64) : uintptr (j : Int) = j := by
  unfold uintptr
  omega

/-- On a natural number below `2 ^ 16`, `uint16` is the identity. -/
theorem uint16_natCast (j : Nat) (h : j < 2 ^ 16) : uint16 (j : Int) = j := by
  unfold uint16
  omega

/-- A claim with `chk` true adds no request that changes controller `i` to the
log, when the info query of `i` never reports the Low Energy bit. -/
theorem newSocket_log_nonmutating {σ : Type} (T : Transport σ) (i : Nat)
    (hi : ∀ fd s, (T.exec (.hciGetDeviceInfo fd i) s).1.err = none →
      (T.exec (.hciGetDeviceInfo fd i) s).1.info.features 4 &&& 0x40 = 0)
    (fd : Int) (j : Nat) (hj : j < 2 ^ 16) (w : World σ)
    (hw : ∀ ev ∈ w.2, ev.call.mutates i = false) :
    ∀ ev ∈ (newSocket T fd (j : Int) true w).2.2, ev.call.mutates i = false := by
  have h64 : uintptr (j : Int) = j := uintptr_natCast j (by omega)
  have h16 : uint16 (j : Int) = j := uint16_natCast j hj
  by_cases hji : j = i
  · subst hji
    have hi1 := hi (uintptr fd) w.1
    simp only [newSocket, call, h16]
    split
    · intro ev hev
      simp only [List.mem_append, List.mem_singleton] at hev
      rcases hev with hev | rfl
      · exact hw ev hev
      · rfl
    · rename_i hnone
      simp only [hi1 hnone, Bool.true_and, beq_self_eq_true, if_true]
      intro ev hev
      simp only [List.mem_append, List.mem_singleton] at hev
      rcases hev with hev | rfl
      · exact hw ev hev
      · rfl
  · have hne : ((j : Int) == (i : Int)) = false := by simpa using hji
    have hne1 : (j == i) = false := by simpa using hji
    simp only [newSocket, newSocket.down, call, h64, h16]
    repeat' split
    all_goals
      intro ev hev
      simp only [List.mem_append, List.mem_singleton] at hev
      rcases hev with hev | rfl
      · first
          | exact hw ev hev
          | (repeat (rcases hev with hev | rfl)
             all_goals first | exact hw ev hev | simp [Call.mutates, hne, hne1])
      · simp [Call.mutates, hne, hne1]

/-- The loop of `newDevice` with `chk` true adds no request that changes
controller `i` to the log, when the info query of `i` never reports the Low
Energy bit. -/
theorem loop_log_nonmutating {σ : Type} (T : Transport σ) (i : Nat)
    (hi : ∀ fd s, (T.exec (.hciGetDeviceInfo fd i) s).1.err = none →
      (T.exec (.hciGetDeviceInfo fd i) s).1.info.features 4 &&& 0x40 = 0)
    (fd : Int) :
    ∀ (k j : Nat) (errs : List GoError) (w : World σ), j + k ≤ 2 ^ 16 →
      (∀ ev ∈ w.2, ev.call.mutates i = false) →
      ∀ ev ∈ (newDevice.loop T fd true k j errs w).2.2, ev.call.mutates i = false := by
  intro k
  induction k with
  | zero =>
    intro j errs w _ hw
    simpa [newDevice.loop] using hw
  | succ k ih =>
    intro j errs w hjk hw
    have hs := newSocket_log_nonmutating T i hi fd j (by omega) w hw
    simp only [newDevice.loop]
    split
    · rename_i d w1 heq
      rw [heq] at hs
      exact hs
    · rename_i e w1 heq
      rw [heq] at hs
      exact ih (j + 1) _ w1 (by omega) hs

/-- C10: when the info query for `n` succeeds and byte 4 of the reported feature
bitmap lacks bit `0x40`, `newSocket fd n true` returns the "does not support LE"
error and its log is the info query alone: no bring-up, reset, bring-down or bind
is issued.  Hence, when the info query of controller `i` never reports the bit,
the log of the whole enumeration `newDevice (-1) true` holds no bring-up, reset,
bring-down or bind for `i`. -/
theorem noLE_candidate_only_queried {σ : Type} (T : Transport σ) :
    (∀ (fd n : Int) (s : σ),
      (T.exec (.hciGetDeviceInfo (uintptr fd) (uint16 n)) s).1.err = none →
      (T.exec (.hciGetDeviceInfo (uintptr fd) (uint16 n)) s).1.info.features 4 &&& 0x40 = 0 →
      newSocket T fd n true (s, []) =
        (.error (.Errorf "does not support LE. dev: %q"
            [.str (T.exec (.hciGetDeviceInfo (uintptr fd) (uint16 n)) s).1.info.name]),
          ((T.exec (.hciGetDeviceInfo (uintptr fd) (uint16 n)) s).2,
            [⟨.hciGetDeviceInfo (uintptr fd) (uint16 n), none⟩]))) ∧
    (∀ (i : Nat),
      (∀ fd s, (T.exec (.hciGetDeviceInfo fd i) s).1.err = none →
        (T.exec (.hciGetDeviceInfo fd i) s).1.info.features 4 &&& 0x40 = 0) →
      ∀ (hciMaxDevices : Nat) (s : σ),
        ∀ ev ∈ (newDevice T hciMaxDevices (-1) true (s, [])).2.2, ev.call.mutates i = false) := by
  constructor
  · intro fd n s hinfo hbit
    simp [newSocket, call, hinfo, hbit]
  · intro i hi hmax s
    simp only [newDevice, call]
    split
    · simp [Call.mutates]
    · simp only [bne_self_eq_false, Bool.false_eq_true, if_false]
      split
      · simp [Call.mutates]
      · apply loop_log_nonmutating T i hi
        · have := Nat.mod_lt (T.exec (Call.hciGetDeviceList
            (uintptr (T.exec Call.Socket s).1.n) hmax) (T.exec Call.Socket s).2).1.req.devNum
            (show 0 < 2 ^ 16 by norm_num)
          omega
        · simp [Call.mutates]

/-- Witness of C10: the first of two controllers reports no Low Energy support;
its claim issues the info query alone, and the enumeration, which goes on to
claim the second, issues no request that changes the first. -/
theorem noLE_candidate_only_queried_witness :
    newSocket secondHasLE 3 0 true ((), []) =
      (.error (.Errorf "does not support LE. dev: %q" [.str (hciName 0)]),
        ((), [⟨.hciGetDeviceInfo 3 0, none⟩])) ∧
    ∀ ev ∈ (newDevice secondHasLE 16 (-1) true ((), [])).2.2, ev.call.mutates 0 = false :=
  ⟨(noLE_candidate_only_queried secondHasLE).1 3 0 () rfl rfl,
   (noLE_candidate_only_queried secondHasLE).2 0
     (fun _ _ _ => by simp [secondHasLE]) 16 ()⟩

/-! ## Properties of `device.Read` -/

/-- C8: `device.Read` issues one readiness wait, with timeout 100, under the read
guard.  If the wait answers count 0 or an error, it returns `(0, that error)`
and issues no read, so a timeout without error returns `(0, nil)`; otherwise it
issues exactly one read and returns the pair `(n, err)` of that read unchanged.
`p` is the answer of the wait, `r` the answer of the read issued after it. -/
theorem device_Read_polls_then_reads {σ : Type} (T : Transport σ) (d : device) (b : List Nat)
    (s : σ) (p r : Reply × σ)
    (hp : T.exec (.Poll d.fds 100) s = p)
    (hr : T.exec (.Read d.fd b.length) p.2 = r) :
    (p.1.n = 0 ∨ p.1.err ≠ none →
      device.Read T d b (s, []) =
        ((0, p.1.err),
          (p.2, [⟨.rmuLock, none⟩, ⟨.Poll d.fds 100, p.1.err⟩, ⟨.rmuUnlock, none⟩]))) ∧
    (p.1.n = 0 → p.1.err = none → (device.Read T d b (s, [])).1 = (0, none)) ∧
    (p.1.n ≠ 0 → p.1.err = none →
      device.Read T d b (s, []) =
        ((r.1.n, r.1.err),
          (r.2, [⟨.rmuLock, none⟩, ⟨.Poll d.fds 100, none⟩,
                 ⟨.Read d.fd b.length, r.1.err⟩, ⟨.rmuUnlock, none⟩]))) := by
  subst hp hr
  refine ⟨?_, ?_, ?_⟩
  · intro h
    rcases h with h | h
    · simp [device.Read, call, note, h]
    · cases he : (T.exec (.Poll d.fds 100) s).1.err with
      | none => exact absurd he h
      | some e => simp [device.Read, call, note, he]
  · intro hn he
    simp [device.Read, call, note, hn, he]
  · intro hn he
    simp [device.Read, call, note, hn, he]

/-- Witness of C8: the wait answers count 3 without error, and the read that
follows answers count 3. -/
theorem device_Read_polls_then_reads_witness :
    device.Read (allSucceed 0) ⟨3, [⟨3, POLLIN, 0⟩], 0, hciName 0⟩ [0, 0, 0, 0] ((), []) =
      ((3, none),
        ((), [⟨.rmuLock, none⟩, ⟨.Poll [⟨3, POLLIN, 0⟩] 100, none⟩,
              ⟨.Read 3 4, none⟩, ⟨.rmuUnlock, none⟩])) :=
  (device_Read_polls_then_reads (allSucceed 0) ⟨3, [⟨3, POLLIN, 0⟩], 0, hciName 0⟩ [0, 0, 0, 0] ()
    _ _ rfl rfl).2.2 (by decide) rfl

end linux

namespace util

/-! ## Properties of `BytePool` -/

/-- On an open pool whose stored buffers all have the width of the pool, a
sequence of `Get`s and of `Put`s of buffers of that width returns only buffers
of that width. -/
theorem run_open_width (w : Int) (ops : List Op) :
    ∀ (p : BytePool), p.width = w → p.pool.closed = false →
      (∀ b ∈ p.pool.buf, (b.length : Int) = w) →
      (∀ b, Op.Put b ∈ ops → (b.length : Int) = w) → Op.Close ∉ ops →
      ∀ outs q, run p ops = .ok (outs, q) → ∀ b ∈ outs, (b.length : Int) = w := by
  induction ops with
  | nil =>
    intro p _ _ _ _ _ outs q h
    simp only [run, Except.ok.injEq, Prod.mk.injEq] at h
    simp [← h.1]
  | cons op ops ih =>
    intro p hpw hopen hbuf hput hclose outs q h
    have hput1 : ∀ b, Op.Put b ∈ ops → (b.length : Int) = w :=
      fun b hb => hput b (List.mem_cons_of_mem _ hb)
    have hclose1 : Op.Close ∉ ops := fun h => hclose (List.mem_cons_of_mem _ h)
    cases op with
    | Get =>
      cases hb : p.pool.buf with
      | nil =>
        by_cases hneg : p.width < 0
        · simp [run, BytePool.Get, hb, hopen, hneg] at h
        · simp only [run, BytePool.Get, hb, hopen, hneg, Bool.false_eq_true, if_false] at h
          cases hr : run p ops with
          | error e => simp [hr] at h
          | ok res =>
            obtain ⟨outs1, q1⟩ := res
            simp only [hr, Except.ok.injEq, Prod.mk.injEq] at h
            obtain ⟨rfl, rfl⟩ := h
            intro b hmem
            rcases List.mem_cons.mp hmem with rfl | hm
            · simp only [List.length_replicate]
              omega
            · exact ih p hpw hopen hbuf hput1 hclose1 outs1 q1 hr b hm
      | cons b0 rest =>
        have hb0 : (b0.length : Int) = w := hbuf b0 (by simp [hb])
        simp only [run, BytePool.Get, hb] at h
        cases hr : run { p with pool := { p.pool with buf := rest } } ops with
        | error e => simp [hr] at h
        | ok res =>
          obtain ⟨outs1, q1⟩ := res
          simp only [hr, Except.ok.injEq, Prod.mk.injEq] at h
          obtain ⟨rfl, rfl⟩ := h
          intro b hmem
          rcases List.mem_cons.mp hmem with rfl | hm
          · exact hb0
          · exact ih { p with pool := { p.pool with buf := rest } } hpw hopen
              (fun b hmem => hbuf b (by simp [hb, hmem])) hput1 hclose1 outs1 q1 hr b hm
    | Put b0 =>
      have hb0 : (b0.length : Int) = w := hput b0 (List.mem_cons_self _ _)
      by_cases hroom : p.pool.buf.length < p.pool.cap
      · simp only [run, BytePool.Put, BytePool.Put.send, hopen, hroom, Bool.false_eq_true,
          if_false, if_true] at h
        exact ih { p with pool := { p.pool with buf := p.pool.buf ++ [b0] } } hpw hopen
          (fun b hmem => by
            rcases List.mem_append.mp hmem with hm | hm
            · exact hbuf b hm
            · rw [List.mem_singleton.mp hm]
              exact hb0) hput1 hclose1 outs q (by simpa [hopen] using h)
      · simp only [run, BytePool.Put, BytePool.Put.send, hopen, hroom, Bool.false_eq_true,
          if_false] at h
        exact ih p hpw hopen hbuf hput1 hclose1 outs q h
    | Close => exact absurd (List.mem_cons_self _ _) hclose

/-- On an open pool of width `w ≥ 0` no sequence of `Get`s and `Put`s panics. -/
theorem run_open_total (ops : List Op) :
    ∀ (p : BytePool), 0 ≤ p.width → p.pool.closed = false → Op.Close ∉ ops →
      ∃ outs q, run p ops = .ok (outs, q) := by
  induction ops with
  | nil =>
    intro p _ _ _
    exact ⟨[], p, rfl⟩
  | cons op ops ih =>
    intro p hw hopen hclose
    have hclose1 : Op.Close ∉ ops := fun h => hclose (List.mem_cons_of_mem _ h)
    cases op with
    | Get =>
      cases hb : p.pool.buf with
      | nil =>
        have hnot : ¬ p.width < 0 := by omega
        obtain ⟨outs, q, hq⟩ := ih p hw hopen hclose1
        exact ⟨List.replicate p.width.toNat 0 :: outs, q,
          by simp [run, BytePool.Get, hb, hopen, hnot, hq]⟩
      | cons b0 rest =>
        obtain ⟨outs, q, hq⟩ := ih { p with pool := { p.pool with buf := rest } } hw hopen hclose1
        exact ⟨b0 :: outs, q, by simp [run, BytePool.Get, hb, hq]⟩
    | Put b0 =>
      by_cases hroom : p.pool.buf.length < p.pool.cap
      · obtain ⟨outs, q, hq⟩ :=
          ih { p with pool := { p.pool with buf := p.pool.buf ++ [b0] } } hw hopen hclose1
        refine ⟨outs, q, ?_⟩
        simp only [run, BytePool.Put, BytePool.Put.send, hopen, hroom]
        simpa [hopen] using hq
      · obtain ⟨outs, q, hq⟩ := ih p hw hopen hclose1
        exact ⟨outs, q, by simp [run, BytePool.Put, BytePool.Put.send, hopen, hroom, hq]⟩
    | Close => exact absurd (List.mem_cons_self _ _) hclose

/-- Counterexample to C2, on a pool of width 4 and depth 1: after `Put` of a
one-byte slice, `Get` returns that slice, of length 1; and after `Close`, `Get`
on the drained channel returns the nil slice, of length 0. -/
theorem Get_returns_wrong_width :
    (∃ p, NewBytePool 4 1 = .ok p ∧
      ∃ q, run p [.Put [7], .Get] = .ok ([[7]], q) ∧ ([7] : List Nat).length ≠ 4) ∧
    (∃ p, NewBytePool 4 1 = .ok p ∧
      ∃ q, run p [.Close, .Get] = .ok ([[]], q) ∧ ([] : List Nat).length ≠ 4) := by
  refine ⟨⟨_, rfl, _, rfl, by decide⟩, ⟨_, rfl, _, rfl, by decide⟩⟩

/-- C2, amended: on a pool created with width `w`, in every sequence of `Get`
and `Put` operations in which every buffer put has length `w`, every buffer a
`Get` returns has length exactly `w`, whether freshly allocated or taken from
the store; and when `w ≥ 0` such a sequence runs to its end without panic. -/
theorem Get_width_of_wellformed_puts (w depth : Int) (p : BytePool) (ops : List Op)
    (hnew : NewBytePool w depth = .ok p)
    (hput : ∀ b, Op.Put b ∈ ops → (b.length : Int) = w) (hclose : Op.Close ∉ ops) :
    (∀ outs q, run p ops = .ok (outs, q) → ∀ b ∈ outs, (b.length : Int) = w) ∧
    (0 ≤ w → ∃ outs q, run p ops = .ok (outs, q)) := by
  unfold NewBytePool at hnew
  split at hnew
  · simp at hnew
  · simp only [Except.ok.injEq] at hnew
    subst hnew
    exact ⟨run_open_width w ops _ rfl rfl (by simp) hput hclose,
      fun hw => run_open_total ops _ hw rfl hclose⟩

/-- Witness of C2, amended: width 2, depth 1; the first `Get` allocates, the
second `Put` finds the store full, the second `Get` takes the stored buffer and
the third allocates again. -/
theorem Get_width_of_wellformed_puts_witness :
    run { pool := { buf := [], cap := 1, closed := false }, width := 2 }
        [.Get, .Put [5, 6], .Put [7, 8], .Get, .Get] =
      .ok ([[0, 0], [5, 6], [0, 0]],
        { pool := { buf := [], cap := 1, closed := false }, width := 2 }) ∧
    ∀ b ∈ [[0, 0], [5, 6], [0, 0]], ((b : List Nat).length : Int) = 2 :=
  ⟨rfl, (Get_width_of_wellformed_puts 2 1 _ [.Get, .Put [5, 6], .Put [7, 8], .Get, .Get] rfl
    (by intro b hb; simp at hb; rcases hb with rfl | rfl <;> rfl) (by decide)).1 _ _ rfl⟩

/-- On a closed pool `Put` returns normally and changes nothing. -/
theorem Put_closed (q : BytePool) (hq : q.pool.closed = true) (b : List Nat) :
    q.Put b = .ok q := by
  simp [BytePool.Put, BytePool.Put.send, hq]

/-- On a closed pool no sequence of `Get` and `Put` panics, the pool stays closed
and its store does not grow. -/
theorem run_closed (ops : List Op) :
    ∀ (q : BytePool), q.pool.closed = true → Op.Close ∉ ops →
      ∃ outs r, run q ops = .ok (outs, r) ∧ r.pool.closed = true ∧
        r.pool.buf.length ≤ q.pool.buf.length := by
  induction ops with
  | nil =>
    intro q hq _
    exact ⟨[], q, rfl, hq, le_refl _⟩
  | cons op ops ih =>
    intro q hq hclose
    have hclose1 : Op.Close ∉ ops := fun h => hclose (List.mem_cons_of_mem _ h)
    cases op with
    | Get =>
      cases hb : q.pool.buf with
      | nil =>
        obtain ⟨outs, r, hr, hrc, hrl⟩ := ih q hq hclose1
        refine ⟨[] :: outs, r, ?_, hrc, ?_⟩
        · simp [run, BytePool.Get, hb, hq, hr]
        · simpa [hb] using hrl
      | cons b0 rest =>
        obtain ⟨outs, r, hr, hrc, hrl⟩ :=
          ih { q with pool := { q.pool with buf := rest } } hq hclose1
        refine ⟨b0 :: outs, r, ?_, hrc, ?_⟩
        · simp [run, BytePool.Get, hb, hr]
        · simp only [List.length_cons]
          exact Nat.le_succ_of_le hrl
    | Put b0 =>
      obtain ⟨outs, r, hr, hrc, hrl⟩ := ih q hq hclose1
      exact ⟨outs, r, by simp [run, Put_closed q hq b0, hr], hrc, hrl⟩
    | Close => exact absurd (List.mem_cons_self _ _) hclose

/-- C7: on a pool `q` that `Close` has shut down, every `Put b` returns normally
(the panic of the send is recovered) and leaves the pool as it was; and whatever
sequence of `Put`s and `Get`s follows the shutdown, none raises a fault, the pool
stays shut down and its store never grows. -/
theorem Put_after_Close_is_noop (p q : BytePool) (hclose : p.Close = .ok q) :
    (∀ b, BytePool.Put.send q b = .error "send on closed channel" ∧ q.Put b = .ok q) ∧
    (∀ ops, Op.Close ∉ ops →
      ∃ outs r, run q ops = .ok (outs, r) ∧ r.pool.closed = true ∧
        r.pool.buf.length ≤ q.pool.buf.length) := by
  have hq : q.pool.closed = true := by
    unfold BytePool.Close at hclose
    split at hclose
    · simp at hclose
    · simp only [Except.ok.injEq] at hclose
      subst hclose
      rfl
  exact ⟨fun b => ⟨by simp [BytePool.Put.send, hq], Put_closed q hq b⟩,
    fun ops hops => run_closed ops q hq hops⟩

/-- Witness of C7: a pool of width 2 holding one buffer is shut down; two `Put`s
and two `Get`s follow without fault, and the store only shrinks. -/
theorem Put_after_Close_is_noop_witness :
    ∃ outs r,
      run { pool := { buf := [[1, 2]], cap := 4, closed := true }, width := 2 }
        [.Put [3, 4], .Get, .Put [5, 6], .Get] = .ok (outs, r) ∧
      r.pool.closed = true ∧ r.pool.buf.length ≤ 1 :=
  (Put_after_Close_is_noop { pool := { buf := [[1, 2]], cap := 4, closed := false }, width := 2 }
    _ rfl).2 [.Put [3, 4], .Get, .Put [5, 6], .Get] (by decide)

end util
